import Mathlib

/-!
Verification of the validation-and-enrichment pipeline of the
mcim-salesforce-ai-bridge repository.

Python strings are embedded as lists of characters (`PyStr`); Python's
ordered dictionaries (insertion-ordered, unique keys) are embedded as
association lists together with an update operation `dictSet` that
replaces the value of an existing key in place and appends new keys at
the end, exactly as dict assignment behaves.  The sources embedded here
are `src/ai/mockservice.py`, `src/ai/io.py` and
`src/salesforce/salesforce.py`.
-/

set_option maxHeartbeats 2000000
set_option maxRecDepth 10000

/-- A Python string, embedded as a list of characters. -/
abbrev PyStr := List Char

/-- Build a `PyStr` from a Lean string literal. -/
def str (s : String) : PyStr := s.data

/-- A single quote character (ASCII 39), used inside generated texts. -/
def sglq : PyStr := [Char.ofNat 39]

/-- Wrap a string in single quotes, as the f-strings of the source do. -/
def q (s : PyStr) : PyStr := sglq ++ s ++ sglq

/-- Embeds Python `str.lower()` (ASCII case folding, as used by the source). -/
def pyLower (s : PyStr) : PyStr := s.map Char.toLower

/-- Embeds Python `str.upper()`. -/
def pyUpper (s : PyStr) : PyStr := s.map Char.toUpper

/-- Embeds Python `str.strip()`: drop whitespace from both ends. -/
def pyStrip (s : PyStr) : PyStr :=
  ((s.dropWhile Char.isWhitespace).reverse.dropWhile Char.isWhitespace).reverse

/-- Embeds Python's `x in [a, b, ...]` membership test on strings. -/
def pyIn (x : PyStr) (l : List PyStr) : Bool := l.any (fun y => decide (y = x))

/-- Decides whether `pat` is a prefix of the second argument. -/
def hasPrefixB : PyStr → PyStr → Bool
  | [], _ => true
  | _ :: _, [] => false
  | a :: as, b :: bs => decide (a = b) && hasPrefixB as bs

/-- Embeds Python's substring test `pat in hay` on strings. -/
def strHas (pat : PyStr) : PyStr → Bool
  | [] => pat.isEmpty
  | c :: rest => hasPrefixB pat (c :: rest) || strHas pat rest

/-- Lookup in an association list (first entry with the given key),
embedding indexing into a Python dict (whose keys are unique). -/
def alookup {K V : Type} [DecidableEq K] : List (K × V) → K → Option V
  | [], _ => none
  | p :: rest, k => if p.1 = k then some p.2 else alookup rest k

/-- Assignment `d[k] = v` on a Python dict: replace the value of an
existing key keeping its position, append a new key at the end. -/
def dictSet {K V : Type} [DecidableEq K] : List (K × V) → K → V → List (K × V)
  | [], k, v => [(k, v)]
  | p :: rest, k, v => if p.1 = k then (k, v) :: rest else p :: dictSet rest k v

/-- A Field Validation Record: the status/reason/value triple stored by
`AssetProcessingResult.insert_state`. -/
structure VRecord where
  status : PyStr
  reason : PyStr
  value : PyStr
deriving DecidableEq

/-- The `ai_state` of an `AssetProcessingResult`: an insertion-ordered
mapping from field name to Field Validation Record. -/
abbrev State := List (PyStr × VRecord)

/-- `AssetProcessingResult.insert_state`. -/
def insert_state (d : State) (field_name status reason value : PyStr) : State :=
  dictSet d field_name ⟨status, reason, value⟩

/-- `AssetProcessingResult.get_failed_validations`: all fields whose
status differs from "ok". -/
def get_failed_validations (d : State) : State :=
  d.filter (fun p => !(decide (p.2.status = str "ok")))

/-- `AssetProcessingResult.is_valid`: no failed validations. -/
def is_valid (d : State) : Bool :=
  decide ((get_failed_validations d).length = 0)

/-- `self.ai_state.get(field, {}).get("value", "")`. -/
def stateValue (d : State) (field : PyStr) : PyStr :=
  match alookup d field with
  | some r => r.value
  | none => []

/-- `self.ai_state.get(field, {}).get("value", default)`. -/
def stateValueD (d : State) (field : PyStr) (default_value : PyStr) : PyStr :=
  match alookup d field with
  | some r => r.value
  | none => default_value

/-- `MockService.known_patterns`: manufacturer → (pattern → canonical label),
in the insertion order of the source's dict literals. -/
def known_patterns : List (PyStr × List (PyStr × PyStr)) :=
  [ (str "cummins",
      [(str "dqkab", str "DQKAB"), (str "qsk", str "QSK"), (str "kta", str "KTA"),
       (str "nt", str "NT"), (str "l10", str "L10")]),
    (str "caterpillar",
      [(str "3516", str "3516"), (str "c32", str "C32"), (str "c15", str "C15"),
       (str "3412", str "3412")]),
    (str "kohler",
      [(str "20rz", str "20RZ"), (str "30rz", str "30RZ"), (str "40rz", str "40RZ")]) ]

/-- The pattern-scanning loop of `MockService._get_product_line`: the first
pattern that is a substring of the lowered model number wins. -/
def findPattern : List (PyStr × PyStr) → PyStr → Option (PyStr × PyStr)
  | [], _ => none
  | p :: rest, model_lower =>
    if strHas p.1 model_lower then some p else findPattern rest model_lower

/-- Reason text for a pattern-table product-line match. -/
def plReasonFound (product_line pattern : PyStr) : PyStr :=
  str "Found product line " ++ q product_line ++ str " from pattern " ++ q pattern

/-- Reason text for the model-prefix fallback heuristic. -/
def plReasonHeuristic (potential_line : PyStr) : PyStr :=
  str "Extracted potential product line " ++ q potential_line ++ str " from model prefix"

/-- The fallback part of `MockService._get_product_line` (after the pattern
table produced no match). -/
def product_line_fallback (model_number : PyStr) (d : State) : State :=
  if 3 < model_number.length then
    if (pyUpper (model_number.take 4)).any Char.isAlpha then
      insert_state d (str "product_line") (str "ok")
        (plReasonHeuristic (pyUpper (model_number.take 4))) (pyUpper (model_number.take 4))
    else
      insert_state d (str "product_line") (str "not_found") (str "No specific product line match found") []
  else
    insert_state d (str "product_line") (str "not_found") (str "No specific product line match found") []

/-- `MockService._get_product_line`. -/
def get_product_line (manufacturer_name model_number : PyStr) (d : State) : State :=
  match alookup known_patterns (pyLower manufacturer_name) with
  | some patterns =>
    match findPattern patterns (pyLower model_number) with
    | some p =>
      insert_state d (str "product_line") (str "ok") (plReasonFound p.2 p.1) p.2
    | none => product_line_fallback model_number d
  | none => product_line_fallback model_number d

/-- `check_manufacturer` from `mockservice.py`. -/
def check_manufacturer (manufacturer : PyStr) (d : State) : State :=
  if manufacturer.isEmpty || (pyStrip manufacturer).isEmpty then
    insert_state d (str "manufacturer") (str "missing") (str "Manufacturer is empty or missing") []
  else if pyIn (pyStrip (pyLower manufacturer)) [str "to be determined", str "unknown"] then
    insert_state d (str "manufacturer") (str "generic") (str "Manufacturer is generic placeholder") manufacturer
  else
    insert_state d (str "manufacturer") (str "ok") (str "Valid manufacturer provided") manufacturer

/-- `check_asset_classification` from `mockservice.py`. -/
def check_asset_classification (asset_classification : PyStr) (d : State) : State :=
  if asset_classification.isEmpty || (pyStrip asset_classification).isEmpty then
    insert_state d (str "asset_classification") (str "missing") (str "Asset classification is empty or missing") []
  else if (pyStrip asset_classification).length < 3 then
    insert_state d (str "asset_classification") (str "invalid") (str "Asset classification too short (minimum 3 characters)") asset_classification
  else
    insert_state d (str "asset_classification") (str "ok") (str "Valid asset classification provided") asset_classification

/-- The generic model numbers rejected by `check_model_number`. -/
def generic_patterns : List PyStr :=
  [str "450", str "500", str "600", str "1000", str "2000", str "generator"]

/-- Reason text for a generic model number. -/
def genericModelReason (model_number : PyStr) : PyStr :=
  str "Model number " ++ q model_number ++ str " is too generic"

/-- `check_model_number` from `mockservice.py`. -/
def check_model_number (model_number : PyStr) (d : State) : State :=
  if model_number.isEmpty || (pyStrip model_number).isEmpty then
    insert_state d (str "model_number") (str "missing") (str "Model number is empty or missing") []
  else if (pyStrip model_number).length < 3 then
    insert_state d (str "model_number") (str "invalid") (str "Model number too short (minimum 3 characters)") model_number
  else if pyIn (pyStrip (pyLower model_number)) generic_patterns then
    insert_state d (str "model_number") (str "generic") (genericModelReason model_number) model_number
  else
    insert_state d (str "model_number") (str "ok") (str "Valid model number provided") model_number

/-- The `LRUCache` of `src/ai/io.py`: an `OrderedDict` (front = least
recently used) plus a fixed capacity. -/
structure LRUCache (K V : Type) where
  cache : List (K × V)
  capacity : Nat

/-- `LRUCache.get` in state-passing form: the method body reads the
dictionary and returns the stored value (or `None`) without mutating it. -/
def LRUCache.getS {K V : Type} [DecidableEq K] (c : LRUCache K V) (k : K) : Option V × LRUCache K V :=
  if (alookup c.cache k).isSome then (alookup c.cache k, c) else (none, c)

/-- The value returned by `LRUCache.get`. -/
def LRUCache.get {K V : Type} [DecidableEq K] (c : LRUCache K V) (k : K) : Option V :=
  (c.getS k).1

/-- `LRUCache.set`: overwrite-and-move-to-end for an existing key;
for a new key, evict the least-recently-used (front) entry when the
cache is at capacity, then append at the most-recently-used end. -/
def LRUCache.set {K V : Type} [DecidableEq K] (c : LRUCache K V) (k : K) (v : V) : LRUCache K V :=
  if (alookup c.cache k).isSome then
    ⟨(c.cache.filter (fun p => !(decide (p.1 = k)))) ++ [(k, v)], c.capacity⟩
  else if c.capacity ≤ c.cache.length then
    ⟨c.cache.tail ++ [(k, v)], c.capacity⟩
  else
    ⟨c.cache ++ [(k, v)], c.capacity⟩

/-- Fold `set` over a list of key/value pairs, in order. -/
def insertAll {K V : Type} [DecidableEq K] (c : LRUCache K V) (kvs : List (K × V)) : LRUCache K V :=
  kvs.foldl (fun acc kv => acc.set kv.1 kv.2) c

/-- One Enrichment Result of `SalesForceService` (the `additional_data`
mapping is never read by the core, so it is omitted). -/
structure Enrichment where
  enhanced_value : PyStr
  confidence : ℚ
  source : PyStr
deriving DecidableEq

/-- `SalesForceService.manufacturer_db["generic"]`. -/
def manufacturer_db_generic : List PyStr :=
  [str "Cummins Power Generation", str "Caterpillar Inc.", str "Kohler Co.",
   str "Generac Power Systems"]

/-- `SalesForceService.model_db["enhanced_models"]`, in dict order. -/
def enhanced_models : List (PyStr × PyStr) :=
  [(str "450", str "C450D6-450kW-Diesel-Generator"),
   (str "500", str "QSK19-G4-500kW-Natural-Gas"),
   (str "600", str "3516B-600kW-Diesel-Marine"),
   (str "1000", str "QST30-G5-1000kW-Standby"),
   (str "2000", str "3520C-2000kW-Prime-Power")]

/-- The `"specific"` values of `SalesForceService.classification_db`. -/
def classification_db_specific : List (PyStr × PyStr) :=
  [(str "generator", str "Emergency Backup Generator (Diesel)"),
   (str "emissions", str "Tier 4 Final Emissions Control System")]

/-- The product lines drawn by the module-level `_get_product_line`
of `salesforce.py`. -/
def product_lines : List PyStr :=
  [str "QSK Series", str "C-Series", str "DQKAB Series", str "PowerTech Series"]

/-- The random draws of one `enrich_failed_validations` round trip:
each component selects the element `random.choice` picks from the
corresponding list of the source. -/
abbrev EnrichChoices := Fin 4 × Fin 2 × Fin 5 × Fin 4

/-- `SalesForceService._get_manufacturer` (the draw made explicit). -/
def sf_get_manufacturer (i : Fin 4) : Enrichment :=
  ⟨manufacturer_db_generic.getD i.val [], 95 / 100, str "Salesforce Vendor Master"⟩

/-- `SalesForceService._get_asset_classification`. -/
def sf_get_asset_classification (i : Fin 2) : Enrichment :=
  ⟨(alookup classification_db_specific (([str "generator", str "emissions"]).getD i.val [])).getD [],
   90 / 100, str "Salesforce Asset Hierarchy"⟩

/-- `SalesForceService._get_model_number`: draw a generic base model key,
then look up its enhanced form. -/
def sf_get_model_number (i : Fin 5) : Enrichment :=
  ⟨(alookup enhanced_models ((enhanced_models.map Prod.fst).getD i.val [])).getD [],
   88 / 100, str "Salesforce Technical Specifications"⟩

/-- The module-level `_get_product_line` of `salesforce.py`. -/
def sf_get_product_line (i : Fin 4) : Enrichment :=
  ⟨product_lines.getD i.val [], 92 / 100, str "Salesforce Product Catalog"⟩

/-- `SalesForceService.lookup_enrichment`: dispatch on the field name. -/
def lookup_enrichment (ch : EnrichChoices) (field_name : PyStr) : Enrichment :=
  if field_name = str "manufacturer" then sf_get_manufacturer ch.1
  else if field_name = str "asset_classification" then sf_get_asset_classification ch.2.1
  else if field_name = str "model_number" then sf_get_model_number ch.2.2.1
  else if field_name = str "product_line" then sf_get_product_line ch.2.2.2
  else ⟨[], 0, str "Unknown"⟩

/-- The `enriched_data` part of
`SalesForceService.enrich_failed_validations`: one enrichment per failed
field, in the iteration order of the failed-validation mapping. -/
def enrich_failed_validations (ch : EnrichChoices) (failed_validations : State) : List (PyStr × Enrichment) :=
  failed_validations.map (fun p => (p.1, lookup_enrichment ch p.1))

/-- Reason text written by `update_with_enriched_data`. -/
def enrichReason (e : Enrichment) : PyStr :=
  str "Enriched via Salesforce: " ++ e.source

/-- `AssetProcessingResult.update_with_enriched_data`: for each entry of
the enrichment mapping whose field is present in `ai_state`, overwrite
that field's record with status "ok" and the enriched value. -/
def update_with_enriched_data (d : State) (enriched_data : List (PyStr × Enrichment)) : State :=
  enriched_data.foldl
    (fun acc p =>
      if (alookup acc p.1).isSome then
        dictSet acc p.1 ⟨str "ok", enrichReason p.2, p.2.enhanced_value⟩
      else acc)
    d

/-- The manufacturer-specific explanation template for Cummins. -/
def cumminsExplanation (model_number product_line : PyStr) : PyStr :=
  str "The model number " ++ q model_number ++ str " corresponds to the "
  ++ q product_line
  ++ str " product line, a diesel generator set manufactured by Cummins. The "
  ++ q product_line ++ str " model is part of Cummins" ++ sglq
  ++ str " 60Hz diesel generator offerings with robust performance specifications. This information is sourced from Cummins"
  ++ sglq ++ str " official product documentation."

/-- The manufacturer-specific explanation template for Caterpillar. -/
def caterpillarExplanation (model_number product_line : PyStr) : PyStr :=
  str "The model number " ++ q model_number ++ str " identifies a Caterpillar "
  ++ q product_line
  ++ str " series generator. This model is part of Caterpillar" ++ sglq
  ++ str "s industrial generator lineup known for reliability and performance in demanding applications."

/-- The manufacturer-specific explanation template for Kohler. -/
def kohlerExplanation (model_number product_line : PyStr) : PyStr :=
  str "The model number " ++ q model_number ++ str " represents a Kohler "
  ++ q product_line
  ++ str " series generator, part of their commercial and industrial power generation portfolio."

/-- The default "match found" explanation template. -/
def defaultMatchExplanation (model_number product_line : PyStr) : PyStr :=
  str "The model number " ++ q model_number ++ str " has been matched to the "
  ++ q product_line
  ++ str " product line based on manufacturer specifications and industry standard naming conventions."

/-- `AssetProcessingResult.generate_explanation`: returns the explanation
text and the state in which it has been stored under key "explanation"
with status "generated". -/
def generate_explanation (d : State) : PyStr × State :=
  let manufacturer := stateValue d (str "manufacturer")
  let model_number := stateValue d (str "model_number")
  let product_line := stateValue d (str "product_line")
  let explanation :=
    if is_valid d && !product_line.isEmpty then
      let manufacturer_lower := pyLower manufacturer
      if manufacturer_lower = str "cummins" then cumminsExplanation model_number product_line
      else if manufacturer_lower = str "caterpillar" then caterpillarExplanation model_number product_line
      else if manufacturer_lower = str "kohler" then kohlerExplanation model_number product_line
      else defaultMatchExplanation model_number product_line
    else
      let failed_validations := get_failed_validations d
      if !failed_validations.isEmpty then
        str "The data needs to be more specific for accurate matching. Issues found with: "
        ++ List.intercalate (str ", ") (failed_validations.map Prod.fst)
        ++ str ". Please provide more detailed information."
      else
        str "Valid data provided but no specific product line match could be determined for model "
        ++ q model_number ++ str "."
  (explanation,
   dictSet d (str "explanation")
     ⟨str "generated", str "Explanation generated based on processing results", explanation⟩)

/-- The three request fields `process_asset_data` reads from `asset_data`
(each defaulting to the empty string). -/
structure AssetData where
  asset_classification_name : PyStr
  manufacturer_name : PyStr
  model_number : PyStr
deriving DecidableEq

/-- Steps 3-4 of `process_asset_data`: the three validators followed by
product-line detection, run on a fresh empty state. -/
def run_validations (asset_data : AssetData) : State :=
  get_product_line asset_data.manufacturer_name asset_data.model_number
    (check_asset_classification asset_data.asset_classification_name
      (check_model_number asset_data.model_number
        (check_manufacturer asset_data.manufacturer_name [])))

/-- The enrichment step of `process_asset_data`: collect the failed
validations, enrich them, and let the state update itself. -/
def enrich_stage (ch : EnrichChoices) (d : State) : State :=
  update_with_enriched_data d (enrich_failed_validations ch (get_failed_validations d))

/-- The body of `MockService.process_asset_data` after the cache probe:
validate, branch on validity, enrich and re-match on failure, and
generate the final explanation. -/
def process_core (asset_data : AssetData) (ch : EnrichChoices) : State :=
  let state := run_validations asset_data
  if is_valid state then (generate_explanation state).2
  else
    let enriched_state := enrich_stage ch state
    let enriched_manufacturer := stateValueD enriched_state (str "manufacturer") asset_data.manufacturer_name
    let enriched_model_number := stateValueD enriched_state (str "model_number") asset_data.model_number
    let rematched := get_product_line enriched_manufacturer enriched_model_number enriched_state
    (generate_explanation rematched).2

/-- `_create_cache_key`: the normalized `classification|manufacturer|model`
triple. -/
def create_cache_key (asset_data : AssetData) : PyStr :=
  pyLower (pyStrip asset_data.asset_classification_name) ++ str "|"
  ++ pyLower (pyStrip asset_data.manufacturer_name) ++ str "|"
  ++ pyLower (pyStrip asset_data.model_number)

/-- `MockService.process_asset_data` with its cache handling.  The three
Boolean flags model whether the key construction, the cache read, or the
cache write raises; the source's `try/except` blocks swallow such errors
(resetting `cache_key` to `None` for the first two, ignoring the failed
write for the third), so the embedding is total. -/
def process_asset_data (raise_key raise_get raise_set : Bool)
    (cache : LRUCache PyStr State) (asset_data : AssetData) (ch : EnrichChoices) :
    State × LRUCache PyStr State :=
  if raise_key || raise_get then
    (process_core asset_data ch, cache)
  else
    match cache.get (create_cache_key asset_data) with
    | some cached_response => (cached_response, cache)
    | none =>
      if raise_set then (process_core asset_data ch, cache)
      else (process_core asset_data ch,
        cache.set (create_cache_key asset_data) (process_core asset_data ch))

/-- The input of end-to-end scenario B of the specification. -/
def scenarioB : AssetData :=
  ⟨str "", str "To Be Determined", str "450"⟩

/-- The state scenario B reaches after the validators and the matcher. -/
def scenarioB_post_validation : State := run_validations scenarioB

/-- The state scenario B reaches right after the enrichment step. -/
def scenarioB_post_enrichment (ch : EnrichChoices) : State :=
  enrich_stage ch scenarioB_post_validation

/-! ### Helper lemmas about association-list dictionaries -/

lemma alookup_dictSet_self {K V : Type} [DecidableEq K] (d : List (K × V)) (k : K) (v : V) :
    alookup (dictSet d k v) k = some v := by
  induction d with
  | nil => simp [dictSet, alookup]
  | cons p rest ih =>
    by_cases h : p.1 = k
    · simp [dictSet, h, alookup]
    · simp [dictSet, h, alookup, ih]

lemma alookup_dictSet_ne {K V : Type} [DecidableEq K] (d : List (K × V)) (k j : K) (v : V)
    (h : j ≠ k) : alookup (dictSet d k v) j = alookup d j := by
  have hkj : ¬(k = j) := fun hk => h hk.symm
  induction d with
  | nil => simp [dictSet, alookup, hkj]
  | cons p rest ih =>
    by_cases hp : p.1 = k
    · subst hp
      simp [dictSet, alookup, hkj]
    · simp [dictSet, hp, alookup, ih]

lemma mem_dictSet_self {K V : Type} [DecidableEq K] (d : List (K × V)) (k : K) (v : V) :
    (k, v) ∈ dictSet d k v := by
  induction d with
  | nil => simp [dictSet]
  | cons p rest ih =>
    by_cases h : p.1 = k
    · simp [dictSet, h]
    · simp [dictSet, h, ih]

lemma alookup_append_left_none {K V : Type} [DecidableEq K] (l1 l2 : List (K × V)) (k : K)
    (h : alookup l1 k = none) : alookup (l1 ++ l2) k = alookup l2 k := by
  induction l1 with
  | nil => simp
  | cons p rest ih =>
    by_cases hp : p.1 = k
    · simp [alookup, hp] at h
    · simp [alookup, hp] at h ⊢
      exact ih h

lemma alookup_filter_ne_self {K V : Type} [DecidableEq K] (l : List (K × V)) (k : K) :
    alookup (l.filter (fun p => !(decide (p.1 = k)))) k = none := by
  induction l with
  | nil => simp [alookup]
  | cons p rest ih =>
    by_cases hp : p.1 = k
    · simp [List.filter, hp, ih]
    · simp [List.filter, hp, alookup, ih]

lemma alookup_tail_none {K V : Type} [DecidableEq K] (l : List (K × V)) (k : K)
    (h : alookup l k = none) : alookup l.tail k = none := by
  cases l with
  | nil => simp [alookup]
  | cons p rest =>
    by_cases hp : p.1 = k
    · simp [alookup, hp] at h
    · simpa [alookup, hp] using h

lemma alookup_eq_none_iff {K V : Type} [DecidableEq K] (l : List (K × V)) (k : K) :
    alookup l k = none ↔ k ∉ l.map Prod.fst := by
  induction l with
  | nil => simp [alookup]
  | cons p rest ih =>
    by_cases hp : p.1 = k
    · simp [alookup, hp]
    · have hk : ¬(k = p.1) := fun hk => hp hk.symm
      simp [alookup, hp, ih, hk]

lemma alookup_singleton_ne {K V : Type} [DecidableEq K] (p : K × V) (k : K) (h : p.1 ≠ k) :
    alookup [p] k = none := by
  simp [alookup, h]

/-! ### Helper lemmas about the LRU cache -/

lemma LRUCache.get_eq_alookup {K V : Type} [DecidableEq K] (c : LRUCache K V) (k : K) :
    c.get k = alookup c.cache k := by
  unfold LRUCache.get LRUCache.getS
  by_cases h : (alookup c.cache k).isSome
  · simp [h]
  · rw [Option.not_isSome_iff_eq_none] at h
    simp [h]

lemma LRUCache.set_cache_of_new_full {K V : Type} [DecidableEq K] (c : LRUCache K V) (k : K) (v : V)
    (hnew : alookup c.cache k = none) (hfull : c.capacity ≤ c.cache.length) :
    (c.set k v).cache = c.cache.tail ++ [(k, v)] := by
  unfold LRUCache.set
  simp [hnew, hfull]

lemma LRUCache.set_cache_of_new_spare {K V : Type} [DecidableEq K] (c : LRUCache K V) (k : K) (v : V)
    (hnew : alookup c.cache k = none) (hroom : ¬ c.capacity ≤ c.cache.length) :
    (c.set k v).cache = c.cache ++ [(k, v)] := by
  unfold LRUCache.set
  simp [hnew, hroom]

lemma LRUCache.set_capacity {K V : Type} [DecidableEq K] (c : LRUCache K V) (k : K) (v : V) :
    (c.set k v).capacity = c.capacity := by
  unfold LRUCache.set
  by_cases h1 : (alookup c.cache k).isSome
  · simp [h1]
  · by_cases h2 : c.capacity ≤ c.cache.length <;> simp [h1, h2]

/-- Claim C7: for every cache state, key and value, `set(k, v)` immediately
followed by `get(k)` returns exactly `v` (round-trip of the last write). -/
theorem lru_set_get_roundtrip (c : LRUCache PyStr State) (k : PyStr) (v : State) :
    (c.set k v).get k = some v := by
  rw [LRUCache.get_eq_alookup]
  by_cases h1 : (alookup c.cache k).isSome
  · have : (c.set k v).cache = (c.cache.filter (fun p => !(decide (p.1 = k)))) ++ [(k, v)] := by
      unfold LRUCache.set
      simp [h1]
    rw [this, alookup_append_left_none _ _ _ (alookup_filter_ne_self _ _)]
    simp [alookup]
  · rw [Option.not_isSome_iff_eq_none] at h1
    by_cases h2 : c.capacity ≤ c.cache.length
    · rw [LRUCache.set_cache_of_new_full c k v h1 h2,
        alookup_append_left_none _ _ _ (alookup_tail_none _ _ h1)]
      simp [alookup]
    · rw [LRUCache.set_cache_of_new_spare c k v h1 h2,
        alookup_append_left_none _ _ _ h1]
      simp [alookup]

/-- Claim C8: `get` is read-only — it returns the stored value (or absent
when the key is missing) and leaves the cache, both its entries and their
recency order, entirely unchanged. -/
theorem lru_get_readonly (c : LRUCache PyStr State) (k : PyStr) :
    c.getS k = (alookup c.cache k, c) := by
  unfold LRUCache.getS
  by_cases h : (alookup c.cache k).isSome
  · simp [h]
  · rw [Option.not_isSome_iff_eq_none] at h
    simp [h]

lemma insertAll_fill {K V : Type} [DecidableEq K] (kvs : List (K × V)) (c : LRUCache K V)
    (hnew : ∀ kv ∈ kvs, alookup c.cache kv.1 = none)
    (hnd : (kvs.map Prod.fst).Nodup)
    (hcap : c.cache.length + kvs.length ≤ c.capacity) :
    insertAll c kvs = ⟨c.cache ++ kvs, c.capacity⟩ := by
  induction kvs generalizing c with
  | nil =>
    cases c
    simp [insertAll]
  | cons kv rest ih =>
    simp only [List.map_cons, List.nodup_cons] at hnd
    have hnew0 : alookup c.cache kv.1 = none := hnew kv (by simp)
    have hroom : ¬ c.capacity ≤ c.cache.length := by
      simp only [List.length_cons] at hcap
      omega
    have hstep : c.set kv.1 kv.2 = ⟨c.cache ++ [kv], c.capacity⟩ := by
      unfold LRUCache.set
      simp [hnew0, hroom]
    have hrec : insertAll c (kv :: rest) = insertAll (c.set kv.1 kv.2) rest := rfl
    rw [hrec, hstep]
    rw [ih ⟨c.cache ++ [kv], c.capacity⟩ ?hnew ?hnd ?hcap]
    · simp
    case hnew =>
      intro kv' hkv'
      rw [alookup_append_left_none _ _ _ (hnew kv' (List.mem_cons_of_mem _ hkv'))]
      refine alookup_singleton_ne _ _ ?_
      intro hfst
      apply hnd.1
      rw [show kv.1 = kv'.1 from hfst]
      exact List.mem_map_of_mem Prod.fst hkv'
    case hnd => exact hnd.2
    case hcap =>
      simp only [List.length_append, List.length_singleton, List.length_cons,
        List.length_nil] at hcap ⊢
      omega

/-- Claim C6: inserting `C+1` distinct keys into an initially empty
capacity-`C` cache (the key `k0` first, then the `C` entries of `kvs`)
evicts the first-inserted key, whose `get` then returns absent; and, in
general, `set` on a new key with the cache at capacity evicts exactly the
least-recently-used (front) entry before appending the new one. -/
theorem lru_set_eviction (C : Nat) (hC : 1 ≤ C) (k0 : PyStr) (v0 : State)
    (kvs : List (PyStr × State)) (hlen : kvs.length = C)
    (hnd : (k0 :: kvs.map Prod.fst).Nodup) :
    (insertAll ((⟨[], C⟩ : LRUCache PyStr State).set k0 v0) kvs).get k0 = none
    ∧ ∀ (c : LRUCache PyStr State) (k : PyStr) (v : State),
        alookup c.cache k = none → c.capacity ≤ c.cache.length →
        (c.set k v).cache = c.cache.tail ++ [(k, v)] := by
  refine ⟨?_, fun c k v h1 h2 => LRUCache.set_cache_of_new_full c k v h1 h2⟩
  rw [List.nodup_cons] at hnd
  have hne : kvs ≠ [] := by
    intro h
    rw [h] at hlen
    simp at hlen
    omega
  have hsplit : kvs.dropLast ++ [kvs.getLast hne] = kvs := List.dropLast_append_getLast hne
  have hdropsub : ∀ kv ∈ kvs.dropLast, kv ∈ kvs := fun kv hkv =>
    List.dropLast_subset kvs hkv
  have hk0drop : k0 ∉ kvs.dropLast.map Prod.fst := by
    intro hmem
    rcases List.mem_map.mp hmem with ⟨kv, hkv, hfst⟩
    apply hnd.1
    rw [← hfst]
    exact List.mem_map_of_mem Prod.fst (hdropsub kv hkv)
  have hk0last : k0 ≠ (kvs.getLast hne).1 := by
    intro h
    apply hnd.1
    rw [h]
    exact List.mem_map_of_mem Prod.fst (List.getLast_mem hne)
  have hmapsplit : kvs.map Prod.fst = kvs.dropLast.map Prod.fst ++ [(kvs.getLast hne).1] := by
    conv_lhs => rw [← hsplit]
    rw [List.map_append, List.map_singleton]
  have hlastdrop : (kvs.getLast hne).1 ∉ kvs.dropLast.map Prod.fst := by
    intro hmem
    have hnd2 := hnd.2
    rw [hmapsplit, List.nodup_append] at hnd2
    exact hnd2.2.2 hmem (by simp)
  have hdllen : kvs.dropLast.length = C - 1 := by
    rw [List.length_dropLast, hlen]
  have h0 : (⟨[], C⟩ : LRUCache PyStr State).set k0 v0 = ⟨[(k0, v0)], C⟩ := by
    have hC0 : ¬ (C ≤ (0 : Nat)) := by omega
    unfold LRUCache.set
    simp [alookup, hC0]
  have hfill : insertAll (⟨[(k0, v0)], C⟩ : LRUCache PyStr State) kvs.dropLast
      = ⟨[(k0, v0)] ++ kvs.dropLast, C⟩ := by
    refine insertAll_fill _ _ ?_ ?_ ?_
    · intro kv hkv
      refine alookup_singleton_ne _ _ ?_
      intro hfst
      apply hnd.1
      rw [show k0 = kv.1 from hfst]
      exact List.mem_map_of_mem Prod.fst (hdropsub kv hkv)
    · exact hnd.2.sublist (List.Sublist.map Prod.fst (List.dropLast_sublist kvs))
    · simp only [List.length_singleton, hdllen]
      omega
  have hmain : insertAll ((⟨[], C⟩ : LRUCache PyStr State).set k0 v0) kvs
      = (insertAll (⟨[(k0, v0)], C⟩ : LRUCache PyStr State) kvs.dropLast).set
          (kvs.getLast hne).1 (kvs.getLast hne).2 := by
    rw [h0]
    conv_lhs => rw [← hsplit]
    simp only [insertAll, List.foldl_append, List.foldl_cons, List.foldl_nil]
  rw [hmain, hfill, LRUCache.get_eq_alookup]
  have hlastnew : alookup (⟨[(k0, v0)] ++ kvs.dropLast, C⟩ :
      LRUCache PyStr State).cache (kvs.getLast hne).1 = none := by
    rw [alookup_eq_none_iff]
    rw [show (([(k0, v0)] ++ kvs.dropLast).map Prod.fst)
        = k0 :: kvs.dropLast.map Prod.fst from rfl]
    intro hmem
    rcases List.mem_cons.mp hmem with h | h
    · exact hk0last h.symm
    · exact hlastdrop h
  have hfull : (⟨[(k0, v0)] ++ kvs.dropLast, C⟩ : LRUCache PyStr State).capacity
      ≤ (⟨[(k0, v0)] ++ kvs.dropLast, C⟩ : LRUCache PyStr State).cache.length := by
    simp only [List.length_append, List.length_singleton, hdllen]
    omega
  rw [LRUCache.set_cache_of_new_full _ _ _ hlastnew hfull]
  rw [show ((⟨[(k0, v0)] ++ kvs.dropLast, C⟩ :
      LRUCache PyStr State).cache.tail) = kvs.dropLast from rfl]
  rw [alookup_eq_none_iff, List.map_append, List.map_singleton]
  intro hmem
  rcases List.mem_append.mp hmem with h | h
  · exact hk0drop h
  · rw [List.mem_singleton] at h
    exact hk0last h

/-- Witness for claim C6 at capacity 1 with keys "a" and "b". -/
theorem lru_set_eviction_witness :
    1 <= 1
    /\ ([((str "b"), ([] : State))].length = 1)
    /\ ((str "a") :: [((str "b"), ([] : State))].map Prod.fst).Nodup
    /\ (insertAll ((⟨[], 1⟩ : LRUCache PyStr State).set (str "a") [])
        [((str "b"), ([] : State))]).get (str "a") = none :=
  ⟨by decide, by decide, by decide,
    (lru_set_eviction 1 (by decide) (str "a") [] [((str "b"), ([] : State))]
      (by decide) (by decide)).1⟩

/-- A state whose only field, `manufacturer`, has already passed validation. -/
def c2_state : State :=
  [(str "manufacturer", ⟨str "ok", str "Valid manufacturer provided", str "Cummins"⟩)]

/-- An enrichment mapping that (incidentally) carries data for the
already-valid `manufacturer` field. -/
def c2_enrichment : Enrichment :=
  ⟨str "Kohler Co.", 95 / 100, str "Salesforce Vendor Master"⟩

/-- Counterexample to claim C2 as stated: `update_with_enriched_data` is
guarded only by presence in `ai_state`, not by a non-"ok" status, so a
field whose record has status "ok" is overwritten (its reason and value
change) when the enrichment mapping contains an entry for it. -/
theorem update_overwrites_ok_field :
    alookup c2_state (str "manufacturer")
      = some ⟨str "ok", str "Valid manufacturer provided", str "Cummins"⟩
    ∧ alookup (update_with_enriched_data c2_state [(str "manufacturer", c2_enrichment)])
        (str "manufacturer")
      = some ⟨str "ok", str "Enriched via Salesforce: Salesforce Vendor Master", str "Kohler Co."⟩ := by
  constructor
  · decide
  · decide

lemma update_with_enriched_data_not_mentioned (d : State)
    (enriched_data : List (PyStr × Enrichment)) (k : PyStr)
    (hall : ∀ p ∈ enriched_data, p.1 ≠ k) :
    alookup (update_with_enriched_data d enriched_data) k = alookup d k := by
  induction enriched_data generalizing d with
  | nil => rfl
  | cons p rest ih =>
    have hstep : update_with_enriched_data d (p :: rest)
        = update_with_enriched_data
            (if (alookup d p.1).isSome then
              dictSet d p.1 ⟨str "ok", enrichReason p.2, p.2.enhanced_value⟩
            else d) rest := rfl
    rw [hstep, ih _ (fun x hx => hall x (List.mem_cons_of_mem _ hx))]
    by_cases hmem : (alookup d p.1).isSome
    · rw [if_pos hmem]
      exact alookup_dictSet_ne d p.1 k _ (fun hk => hall p (by simp) hk.symm)
    · rw [if_neg hmem]

lemma update_with_enriched_data_mentioned (d : State)
    (enriched_data : List (PyStr × Enrichment)) (k : PyStr) (e : Enrichment)
    (hpres : (alookup d k).isSome = true)
    (hfilter : enriched_data.filter (fun p => decide (p.1 = k)) = [(k, e)]) :
    alookup (update_with_enriched_data d enriched_data) k
      = some ⟨str "ok", enrichReason e, e.enhanced_value⟩ := by
  induction enriched_data generalizing d with
  | nil => simp at hfilter
  | cons p rest ih =>
    by_cases hk : p.1 = k
    · rw [List.filter_cons_of_pos (by simpa using hk)] at hfilter
      injection hfilter with hp hrest
      have hnok : ∀ x ∈ rest, x.1 ≠ k := by
        intro x hx hxk
        have hxf : x ∈ rest.filter (fun p => decide (p.1 = k)) :=
          List.mem_filter.mpr ⟨hx, by simp [hxk]⟩
        rw [hrest] at hxf
        exact absurd hxf (List.not_mem_nil _)
      subst hp
      have hstep : update_with_enriched_data d ((k, e) :: rest)
          = update_with_enriched_data
              (if (alookup d k).isSome then
                dictSet d k ⟨str "ok", enrichReason e, e.enhanced_value⟩
              else d) rest := rfl
      rw [hstep, if_pos hpres,
        update_with_enriched_data_not_mentioned _ _ _ hnok, alookup_dictSet_self]
    · rw [List.filter_cons_of_neg (by simpa using hk)] at hfilter
      have hstep : update_with_enriched_data d (p :: rest)
          = update_with_enriched_data
              (if (alookup d p.1).isSome then
                dictSet d p.1 ⟨str "ok", enrichReason p.2, p.2.enhanced_value⟩
              else d) rest := rfl
      rw [hstep]
      by_cases hg : (alookup d p.1).isSome
      · rw [if_pos hg]
        refine ih _ ?_ hfilter
        rw [alookup_dictSet_ne d p.1 k _ (fun h => hk h.symm)]
        exact hpres
      · rw [if_neg hg]
        exact ih d hpres hfilter

/-- Claim C2 (amended): `update_with_enriched_data` leaves every field the
enrichment mapping does not mention unchanged, but it overwrites every
field that is present in the state and mentioned in the mapping regardless
of the field's current status — including one whose status is already
"ok" — replacing its record with status "ok" and the value of the field's
(unique, since the mapping is a dict) entry in the mapping.  The narrowing
to originally-failed fields holds inside `process_asset_data` only because
the orchestrator builds the mapping from the failed set alone. -/
theorem update_with_enriched_data_frame (d : State)
    (enriched_data : List (PyStr × Enrichment)) (k : PyStr) (e : Enrichment) :
    (enriched_data.all (fun p => !(decide (p.1 = k))) = true →
      alookup (update_with_enriched_data d enriched_data) k = alookup d k)
    ∧ ((alookup d k).isSome = true →
      enriched_data.filter (fun p => decide (p.1 = k)) = [(k, e)] →
      alookup (update_with_enriched_data d enriched_data) k
        = some ⟨str "ok", enrichReason e, e.enhanced_value⟩) := by
  constructor
  · intro hall
    refine update_with_enriched_data_not_mentioned d enriched_data k ?_
    intro p hp
    have hp2 := List.all_eq_true.mp hall p hp
    simpa using hp2
  · exact update_with_enriched_data_mentioned d enriched_data k e

/-- Witness for the amended claim C2: the frame part on a mapping that
does not mention `manufacturer`, and the overwrite part on a two-entry
mapping that mentions the already-"ok" `manufacturer` field. -/
theorem update_with_enriched_data_frame_witness :
    alookup (update_with_enriched_data c2_state [(str "x", c2_enrichment)]) (str "manufacturer")
      = alookup c2_state (str "manufacturer")
    ∧ alookup (update_with_enriched_data c2_state
        [(str "x", c2_enrichment), (str "manufacturer", c2_enrichment)]) (str "manufacturer")
      = some ⟨str "ok", enrichReason c2_enrichment, c2_enrichment.enhanced_value⟩ :=
  ⟨(update_with_enriched_data_frame c2_state [(str "x", c2_enrichment)]
      (str "manufacturer") c2_enrichment).1 (by decide),
   (update_with_enriched_data_frame c2_state
      [(str "x", c2_enrichment), (str "manufacturer", c2_enrichment)]
      (str "manufacturer") c2_enrichment).2 (by decide) (by rfl)⟩

lemma findPattern_eq_find (l : List (PyStr × PyStr)) (m : PyStr) :
    findPattern l m = l.find? (fun p => strHas p.1 m) := by
  induction l with
  | nil => rfl
  | cons p rest ih =>
    by_cases h : strHas p.1 m
    · simp [findPattern, List.find?, h]
    · simp only [Bool.not_eq_true] at h
      simp [findPattern, List.find?, h, ih]

/-- The Product-Line Matcher's fallback, stated from the specification's
words: status and value only. -/
def productLineFallbackSV (model : PyStr) : PyStr × PyStr :=
  if 3 < model.length ∧ (pyUpper (model.take 4)).any Char.isAlpha = true then
    (str "ok", pyUpper (model.take 4))
  else
    (str "not_found", [])

/-- The Product-Line Matcher, stated from the specification's words: if
the lower-cased manufacturer is a key of the pattern table, the first
pattern (in table order) that is a substring of the lower-cased model
yields status "ok" with the canonical label; otherwise the 4-character
prefix heuristic applies; otherwise status "not_found" with empty value. -/
def productLineSpecSV (manufacturer model : PyStr) : PyStr × PyStr :=
  match alookup known_patterns (pyLower manufacturer) with
  | some patterns =>
    match patterns.find? (fun p => strHas p.1 (pyLower model)) with
    | some p => (str "ok", p.2)
    | none => productLineFallbackSV model
  | none => productLineFallbackSV model

lemma product_line_fallback_sv (model_number : PyStr) (d : State) :
    (alookup (product_line_fallback model_number d) (str "product_line")).map
        (fun r => (r.status, r.value))
      = some (productLineFallbackSV model_number) := by
  by_cases h1 : 3 < model_number.length
  · by_cases h2 : (pyUpper (model_number.take 4)).any Char.isAlpha = true
    · rw [product_line_fallback, if_pos h1, if_pos h2, insert_state, alookup_dictSet_self,
        productLineFallbackSV, if_pos (And.intro h1 h2)]
      rfl
    · rw [product_line_fallback, if_pos h1, if_neg h2, insert_state, alookup_dictSet_self,
        productLineFallbackSV, if_neg (fun hc => h2 hc.2)]
      rfl
  · rw [product_line_fallback, if_neg h1, insert_state, alookup_dictSet_self,
      productLineFallbackSV, if_neg (fun hc => h1 hc.1)]
    rfl

/-- Claim C3: for every manufacturer, model number and prior state, the
record the Product-Line Matcher stores under `product_line` has exactly
the status and value described by the specification's algorithm
(`productLineSpecSV`). -/
theorem get_product_line_spec (manufacturer_name model_number : PyStr) (d : State) :
    (alookup (get_product_line manufacturer_name model_number d) (str "product_line")).map
        (fun r => (r.status, r.value))
      = some (productLineSpecSV manufacturer_name model_number) := by
  unfold get_product_line productLineSpecSV
  split
  · next patterns heq =>
    rw [← findPattern_eq_find]
    generalize findPattern patterns (pyLower model_number) = o2
    cases o2 with
    | none => exact product_line_fallback_sv model_number d
    | some p =>
      show (alookup (insert_state d (str "product_line") (str "ok") (plReasonFound p.2 p.1) p.2)
          (str "product_line")).map (fun r => (r.status, r.value)) = some (str "ok", p.2)
      rw [insert_state, alookup_dictSet_self]
      rfl
  · exact product_line_fallback_sv model_number d

/-- The model-number validator, stated from the specification's words:
trimmed length 0 → missing, trimmed length 1 or 2 → invalid, normalized
value in the generic set → generic, otherwise ok; first match wins; the
original untrimmed input is the stored value except for missing. -/
def modelNumberSpecSV (model_number : PyStr) : PyStr × PyStr :=
  if (pyStrip model_number).length = 0 then (str "missing", [])
  else if (pyStrip model_number).length = 1 ∨ (pyStrip model_number).length = 2 then
    (str "invalid", model_number)
  else if pyIn (pyStrip (pyLower model_number)) generic_patterns = true then
    (str "generic", model_number)
  else (str "ok", model_number)

/-- Claim C4: for every model number and prior state, the record
`check_model_number` stores under `model_number` has exactly the status
and value described by the specification (`modelNumberSpecSV`), with the
checks applied in the order missing, invalid, generic, ok. -/
theorem check_model_number_spec (model_number : PyStr) (d : State) :
    (alookup (check_model_number model_number d) (str "model_number")).map
        (fun r => (r.status, r.value))
      = some (modelNumberSpecSV model_number) := by
  by_cases h0 : (pyStrip model_number).length = 0
  · have hnil : pyStrip model_number = [] := List.length_eq_zero.mp h0
    have hcond : (model_number.isEmpty || (pyStrip model_number).isEmpty) = true := by
      rw [hnil]
      simp
    rw [check_model_number, if_pos hcond, modelNumberSpecSV, if_pos h0,
      insert_state, alookup_dictSet_self]
    rfl
  · have hcond : ¬ ((model_number.isEmpty || (pyStrip model_number).isEmpty) = true) := by
      simp only [Bool.or_eq_true, List.isEmpty_iff]
      rintro (h | h)
      · exact h0 (by rw [h]; rfl)
      · exact h0 (by rw [h]; rfl)
    rw [check_model_number, if_neg hcond, modelNumberSpecSV, if_neg h0]
    by_cases h1 : (pyStrip model_number).length < 3
    · rw [if_pos h1, if_pos (show (pyStrip model_number).length = 1 ∨
          (pyStrip model_number).length = 2 by omega),
        insert_state, alookup_dictSet_self]
      rfl
    · rw [if_neg h1, if_neg (show ¬ ((pyStrip model_number).length = 1 ∨
          (pyStrip model_number).length = 2) by omega)]
      by_cases h2 : pyIn (pyStrip (pyLower model_number)) generic_patterns = true
      · rw [if_pos h2, if_pos h2, insert_state, alookup_dictSet_self]
        rfl
      · rw [if_neg h2, if_neg h2, insert_state, alookup_dictSet_self]
        rfl

lemma toLower_of_ws (c : Char) (h : c.isWhitespace = true) : c.toLower = c := by
  have h4 : ((c = ' ' ∨ c = '\t') ∨ c = '\r') ∨ c = '\n' := by
    simpa [Char.isWhitespace] using h
  rcases h4 with ((rfl | rfl) | rfl) | rfl <;> decide

lemma all_ws_of_dropWhile_all (s : PyStr)
    (h : ∀ c ∈ s.dropWhile Char.isWhitespace, c.isWhitespace = true) :
    ∀ c ∈ s, c.isWhitespace = true := by
  induction s with
  | nil => simp
  | cons a rest ih =>
    by_cases ha : a.isWhitespace = true
    · rw [List.dropWhile_cons_of_pos ha] at h
      intro c hc
      rcases List.mem_cons.mp hc with rfl | hcr
      · exact ha
      · exact ih h c hcr
    · rw [List.dropWhile_cons_of_neg (by simpa using ha)] at h
      exact h

lemma pyStrip_eq_nil_iff (s : PyStr) :
    pyStrip s = [] ↔ ∀ c ∈ s, c.isWhitespace = true := by
  constructor
  · intro h
    unfold pyStrip at h
    rw [List.reverse_eq_nil_iff, List.dropWhile_eq_nil_iff] at h
    refine all_ws_of_dropWhile_all s ?_
    intro c hc
    exact h c (List.mem_reverse.mpr hc)
  · intro h
    unfold pyStrip
    rw [List.dropWhile_eq_nil_iff.mpr h]
    rfl

lemma pyStrip_pyLower_nil (s : PyStr) (h : pyStrip s = []) :
    pyStrip (pyLower s) = [] := by
  rw [pyStrip_eq_nil_iff] at h ⊢
  intro c hc
  rcases List.mem_map.mp hc with ⟨a, ha, rfl⟩
  rw [toLower_of_ws a (h a ha)]
  exact h a ha

/-- Claim C5: for every manufacturer string whose normalized (lower-cased,
trimmed) form is "to be determined" or "unknown" — any letter case, any
surrounding whitespace — `check_manufacturer` records status "generic"
with the original input stored as value. -/
theorem check_manufacturer_generic (manufacturer : PyStr) (d : State)
    (h : pyStrip (pyLower manufacturer) = str "to be determined"
      ∨ pyStrip (pyLower manufacturer) = str "unknown") :
    alookup (check_manufacturer manufacturer d) (str "manufacturer")
      = some ⟨str "generic", str "Manufacturer is generic placeholder", manufacturer⟩ := by
  have hne : pyStrip (pyLower manufacturer) ≠ [] := by
    rcases h with h | h <;> rw [h] <;> decide
  have hcond : ¬ ((manufacturer.isEmpty || (pyStrip manufacturer).isEmpty) = true) := by
    simp only [Bool.or_eq_true, List.isEmpty_iff]
    rintro (hm | hm)
    · exact hne (by rw [hm]; rfl)
    · exact hne (pyStrip_pyLower_nil manufacturer hm)
  have hin : pyIn (pyStrip (pyLower manufacturer))
      [str "to be determined", str "unknown"] = true := by
    rcases h with h | h <;> rw [h] <;> decide
  rw [check_manufacturer, if_neg hcond, if_pos hin, insert_state, alookup_dictSet_self]

/-- Witness for claim C5 on the input " UNKNOWN ". -/
theorem check_manufacturer_generic_witness :
    (pyStrip (pyLower (str " UNKNOWN ")) = str "to be determined"
      ∨ pyStrip (pyLower (str " UNKNOWN ")) = str "unknown")
    ∧ alookup (check_manufacturer (str " UNKNOWN ") []) (str "manufacturer")
      = some ⟨str "generic", str "Manufacturer is generic placeholder", str " UNKNOWN "⟩ :=
  ⟨Or.inr (by decide),
   check_manufacturer_generic (str " UNKNOWN ") [] (Or.inr (by decide))⟩

/-- Claim C9: when any cache operation raises during `process_asset_data`
(the key construction, the cache read, or — on a miss — the cache write),
the error is absorbed inside the orchestrator and the returned Processing
State is exactly the one produced by the cache-free pipeline
`process_core`; the failure is never surfaced to the caller (the
embedding is total because the source's `except` blocks swallow it). -/
theorem cache_failures_absorbed (raise_key raise_get raise_set : Bool)
    (cache : LRUCache PyStr State) (asset_data : AssetData) (ch : EnrichChoices)
    (h : raise_key = true ∨ raise_get = true ∨
      (raise_set = true ∧ cache.get (create_cache_key asset_data) = none)) :
    (process_asset_data raise_key raise_get raise_set cache asset_data ch).1
      = process_core asset_data ch := by
  by_cases h1 : (raise_key || raise_get) = true
  · rw [process_asset_data, if_pos h1]
  · rcases h with h | h | ⟨hs, hmiss⟩
    · exact absurd (by rw [h]; simp) h1
    · exact absurd (by rw [h]; simp) h1
    · rw [process_asset_data, if_neg h1]
      split
      · next cached heq =>
        rw [hmiss] at heq
        cases heq
      · split <;> rfl

/-- Input used by the C9 witness. -/
def witnessAsset : AssetData := ⟨str "Generator", str "Cummins", str "QSK60"⟩

/-- Empty cache of the source's default capacity, used by the C9 witness. -/
def witnessCache : LRUCache PyStr State := ⟨[], 100⟩

/-- Enrichment draws used by the C9 witness. -/
def witnessChoices : EnrichChoices := (0, 0, 0, 0)

/-- Witness for claim C9: a raising key construction leaves the result
equal to the cache-free pipeline's. -/
theorem cache_failures_absorbed_witness :
    (true = true ∨ false = true ∨
      (false = true ∧ witnessCache.get (create_cache_key witnessAsset) = none))
    ∧ (process_asset_data true false false witnessCache witnessAsset witnessChoices).1
        = process_core witnessAsset witnessChoices :=
  ⟨Or.inl rfl,
   cache_failures_absorbed true false false witnessCache witnessAsset witnessChoices (Or.inl rfl)⟩

/-- Claim C10: `generate_explanation` always stores an `explanation`
record with status "generated" (not "ok"); since `is_valid` counts every
record whose status differs from "ok" as failed, every state on which
`generate_explanation` has been called reports `is_valid = false` and
lists `explanation` among its failed validations. -/
theorem generate_explanation_invalidates (d : State) :
    (alookup (generate_explanation d).2 (str "explanation")).map VRecord.status
        = some (str "generated")
    ∧ is_valid (generate_explanation d).2 = false
    ∧ (get_failed_validations (generate_explanation d).2).any
        (fun p => decide (p.1 = str "explanation")) = true := by
  have hd2 : (generate_explanation d).2
      = dictSet d (str "explanation")
          ⟨str "generated", str "Explanation generated based on processing results",
            (generate_explanation d).1⟩ := rfl
  have hmem : ((str "explanation"),
      (⟨str "generated", str "Explanation generated based on processing results",
        (generate_explanation d).1⟩ : VRecord)) ∈ (generate_explanation d).2 := by
    rw [hd2]
    exact mem_dictSet_self _ _ _
  have hfmem : ((str "explanation"),
      (⟨str "generated", str "Explanation generated based on processing results",
        (generate_explanation d).1⟩ : VRecord)) ∈
      get_failed_validations (generate_explanation d).2 := by
    rw [get_failed_validations, List.mem_filter]
    exact ⟨hmem, rfl⟩
  refine ⟨?_, ?_, ?_⟩
  · rw [hd2, alookup_dictSet_self]
    rfl
  · rw [is_valid]
    apply decide_eq_false
    intro hlen
    rw [List.length_eq_zero] at hlen
    rw [hlen] at hfmem
    exact absurd hfmem (List.not_mem_nil _)
  · rw [List.any_eq_true]
    exact ⟨_, hfmem, rfl⟩

/-- Claim C1 (end-to-end scenario B): for the input `{classification: "",
manufacturer: "To Be Determined", model: "450"}`, the pipeline first
records statuses missing / generic / generic for asset classification,
manufacturer and model number (so the state is invalid and the
orchestrator branches into enrichment); then, for every output the
enrichment collaborator may return, right after the enrichment step all
three fields have status "ok" with non-empty values taken verbatim from
the collaborator, and `is_valid` holds on the enriched state. -/
theorem scenario_b_enrichment (ch : EnrichChoices) :
    (alookup scenarioB_post_validation (str "asset_classification")).map VRecord.status
        = some (str "missing")
    ∧ (alookup scenarioB_post_validation (str "manufacturer")).map VRecord.status
        = some (str "generic")
    ∧ (alookup scenarioB_post_validation (str "model_number")).map VRecord.status
        = some (str "generic")
    ∧ is_valid scenarioB_post_validation = false
    ∧ (alookup (scenarioB_post_enrichment ch) (str "asset_classification")).map VRecord.status
        = some (str "ok")
    ∧ (alookup (scenarioB_post_enrichment ch) (str "asset_classification")).map VRecord.value
        = some (lookup_enrichment ch (str "asset_classification")).enhanced_value
    ∧ (lookup_enrichment ch (str "asset_classification")).enhanced_value.isEmpty = false
    ∧ (alookup (scenarioB_post_enrichment ch) (str "manufacturer")).map VRecord.status
        = some (str "ok")
    ∧ (alookup (scenarioB_post_enrichment ch) (str "manufacturer")).map VRecord.value
        = some (lookup_enrichment ch (str "manufacturer")).enhanced_value
    ∧ (lookup_enrichment ch (str "manufacturer")).enhanced_value.isEmpty = false
    ∧ (alookup (scenarioB_post_enrichment ch) (str "model_number")).map VRecord.status
        = some (str "ok")
    ∧ (alookup (scenarioB_post_enrichment ch) (str "model_number")).map VRecord.value
        = some (lookup_enrichment ch (str "model_number")).enhanced_value
    ∧ (lookup_enrichment ch (str "model_number")).enhanced_value.isEmpty = false
    ∧ is_valid (scenarioB_post_enrichment ch) = true := by
  revert ch
  decide
